import Mathlib

/-!
Shallow embedding of the ZeroTrace enrichment core
(`src/enrichment-python/app/`), covering:

* `version_matcher.py` — scheme detection, semver/calver parsing and
  comparison, version range parsing and matching, CPE version matching;
* `ai_matching/cpe_matcher.py` — CPE string parsing, version-range matching
  for semantic candidates, confidence blending and labels;
* `ai_matching/hybrid_cpe_matcher.py` — the legacy score-to-label adapter;
* `core/cache.py` — two-tier cache (in-process TTL cache + redis);
* `services/enrichment.py` and `batch_enrichment.py` — single-item pipeline
  and batch orchestration;
* `services/cpe_matcher.py` — the L1 exact-match (keyword intersection)
  candidate lookup.

Python strings are modelled as `String` / `List Char` (Python compares
strings by code point, as does `strCmp` below).  Python floats are modelled
as `ℚ`: every constant appearing in the code (0.5, 0.9, 0.95, 0.6, …) is
dyadic-or-decimal and the claims under study concern the algorithmic
structure, not IEEE rounding.  Fallible I/O (database, redis, HTTP) is
modelled by explicit oracle records / `Except` values passed as inputs.
-/

namespace ZeroTrace

/-! ### Basic character and string helpers (Python semantics) -/

/-- Python `\d` on ASCII input (regex digit class). -/
def isPyDigit (c : Char) : Bool := '0' ≤ c && c ≤ '9'

/-- Python whitespace for `str.strip`, `str.split()` and regex `\s`
(ASCII fragment: space, tab, newline, carriage return, vertical tab,
form feed). -/
def isPySpace (c : Char) : Bool :=
  c = ' ' || c = '\t' || c = '\n' || c = '\r' || c = '\x0b' || c = '\x0c'

/-- The regex class `[0-9A-Za-z-]` used by the semver prerelease/build and
calver prerelease groups. -/
def isIdChar (c : Char) : Bool :=
  isPyDigit c || ('A' ≤ c && c ≤ 'Z') || ('a' ≤ c && c ≤ 'z') || c = '-'

/-- Value of a run of decimal digits (Python `int(...)` on the captured
group). -/
def digitsToNat (l : List Char) : Nat :=
  l.foldl (fun a c => a * 10 + (c.toNat - 48)) 0

/-- Python string comparison (`<`, `>`, `==`) as a three-way compare:
lexicographic by code point, a strict prefix sorting first. -/
def strCmp : List Char → List Char → Int
  | [], [] => 0
  | [], _ :: _ => -1
  | _ :: _, [] => 1
  | a :: as, b :: bs =>
    if a.toNat < b.toNat then -1
    else if b.toNat < a.toNat then 1
    else strCmp as bs

/-- Python `s.strip()` (default whitespace, both ends). -/
def pyStripL (l : List Char) : List Char :=
  ((l.dropWhile isPySpace).reverse.dropWhile isPySpace).reverse

/-- Python `s.split(sep)` for a one-character separator: `""` splits to
`[""]`, adjacent separators yield empty fields. -/
def splitSep (sep : Char) : List Char → List (List Char)
  | [] => [[]]
  | c :: rest =>
    if c = sep then [] :: splitSep sep rest
    else
      match splitSep sep rest with
      | [] => [[c]]
      | s :: ss => (c :: s) :: ss

/-! ### `version_matcher.py`: scheme patterns

The three compiled regexes of `VersionComparison.__init__` are embedded as
deterministic parsers.  Each one recognises exactly the regex's (anchored)
language; the greedy/backtracking behaviour of Python `re` on these
patterns collapses to the deterministic strategy implemented here, because
every character class is disjoint from the delimiter that follows it. -/

/-- Result of the semver pattern
`^(\d+)\.(\d+)\.(\d+)(?:-([0-9A-Za-z-]+(?:\.[0-9A-Za-z-]+)*))?`
`(?:\+([0-9A-Za-z-]+(?:\.[0-9A-Za-z-]+)*))?$` — groups `(major, minor,
patch, prerelease, build)`; `parse_semver` maps an absent group to `0`/`''`. -/
structure SemParse where
  major : Nat
  minor : Nat
  patch : Nat
  pre : List Char
  build : List Char
deriving DecidableEq, Repr

/-- Continuation of the dot-separated chunk group
`(?:\.[0-9A-Za-z-]+)*`: consumes `.chunk` repetitions greedily.  `fuel` is
an upper bound on the number of iterations (each consumes ≥ 2 chars). -/
def chunksGo : Nat → List Char → List Char × List Char
  | 0, l => ([], l)
  | fuel + 1, l =>
    match l with
    | '.' :: rest =>
      let c := rest.takeWhile isIdChar
      if c.isEmpty then ([], '.' :: rest)
      else
        let (m, rf) := chunksGo fuel (rest.dropWhile isIdChar)
        ('.' :: (c ++ m), rf)
    | l => ([], l)

/-- The group `[0-9A-Za-z-]+(?:\.[0-9A-Za-z-]+)*`; returns the captured
text and the remaining input, or `none` when the first chunk is empty. -/
def semChunks (l : List Char) : Option (List Char × List Char) :=
  let c1 := l.takeWhile isIdChar
  if c1.isEmpty then none
  else
    let r1 := l.dropWhile isIdChar
    let (m, rf) := chunksGo r1.length r1
    some (c1 ++ m, rf)

/-- The optional `-prerelease` / `+build` tail of the semver pattern,
anchored at end of input. -/
def semPreBuild : List Char → Option (List Char × List Char)
  | [] => some ([], [])
  | '-' :: r =>
    match semChunks r with
    | none => none
    | some (pre, r2) =>
      match r2 with
      | [] => some (pre, [])
      | '+' :: r3 =>
        match semChunks r3 with
        | none => none
        | some (b, r4) => if r4.isEmpty then some (pre, b) else none
      | _ => none
  | '+' :: r3 =>
    match semChunks r3 with
    | none => none
    | some (b, r4) => if r4.isEmpty then some ([], b) else none
  | _ => none

/-- Full-anchored match of `semver_pattern`. -/
def semverMatchL (l : List Char) : Option SemParse :=
  let d1 := l.takeWhile isPyDigit
  if d1.isEmpty then none
  else
    match l.dropWhile isPyDigit with
    | '.' :: r2 =>
      let d2 := r2.takeWhile isPyDigit
      if d2.isEmpty then none
      else
        match r2.dropWhile isPyDigit with
        | '.' :: r4 =>
          let d3 := r4.takeWhile isPyDigit
          if d3.isEmpty then none
          else
            match semPreBuild (r4.dropWhile isPyDigit) with
            | some (pre, build) =>
              some ⟨digitsToNat d1, digitsToNat d2, digitsToNat d3, pre, build⟩
            | none => none
        | _ => none
    | _ => none

/-- Result of the calver pattern
`^(\d{4})\.(\d{1,2})\.(\d{1,2})(?:\.(\d+))?(?:-([0-9A-Za-z-]+))?$` —
groups `(year, month, day, micro, prerelease)` with `parse_calver`
defaults. -/
structure CalParse where
  year : Nat
  month : Nat
  day : Nat
  micro : Nat
  pre : List Char
deriving DecidableEq, Repr

/-- The optional `.micro` and `-prerelease` tail of the calver pattern,
anchored at end of input. -/
def calTail : List Char → Option (Nat × List Char)
  | [] => some (0, [])
  | '.' :: r =>
    let d := r.takeWhile isPyDigit
    if d.isEmpty then none
    else
      match r.dropWhile isPyDigit with
      | [] => some (digitsToNat d, [])
      | '-' :: r3 =>
        let p := r3.takeWhile isIdChar
        if p.isEmpty || !(r3.dropWhile isIdChar).isEmpty then none
        else some (digitsToNat d, p)
      | _ => none
  | '-' :: r3 =>
    let p := r3.takeWhile isIdChar
    if p.isEmpty || !(r3.dropWhile isIdChar).isEmpty then none
    else some (0, p)
  | _ => none

/-- Full-anchored match of `calver_pattern`.  `\d{4}` / `\d{1,2}` force the
whole digit run to have the stated length (a longer run cannot match, as
the next required character is `.` or end). -/
def calverMatchL (l : List Char) : Option CalParse :=
  let d1 := l.takeWhile isPyDigit
  if d1.length ≠ 4 then none
  else
    match l.dropWhile isPyDigit with
    | '.' :: r2 =>
      let d2 := r2.takeWhile isPyDigit
      if d2.length = 0 || 2 < d2.length then none
      else
        match r2.dropWhile isPyDigit with
        | '.' :: r4 =>
          let d3 := r4.takeWhile isPyDigit
          if d3.length = 0 || 2 < d3.length then none
          else
            match calTail (r4.dropWhile isPyDigit) with
            | some (micro, pre) =>
              some ⟨digitsToNat d1, digitsToNat d2, digitsToNat d3, micro, pre⟩
            | none => none
        | _ => none
    | _ => none

/-- Optional group `(?:\.(\d+))?` of `pep440_pattern`: consume `.digits`
when present, otherwise leave the input unchanged. -/
def optDotNum (r : List Char) : List Char :=
  match r with
  | '.' :: r2 =>
    if (r2.takeWhile isPyDigit).isEmpty then r else r2.dropWhile isPyDigit
  | _ => r

/-- Optional group `(?:([ab]|rc)(\d+))?` of `pep440_pattern`. -/
def optAbRc (r : List Char) : List Char :=
  match r with
  | 'a' :: r2 =>
    if (r2.takeWhile isPyDigit).isEmpty then r else r2.dropWhile isPyDigit
  | 'b' :: r2 =>
    if (r2.takeWhile isPyDigit).isEmpty then r else r2.dropWhile isPyDigit
  | 'r' :: 'c' :: r2 =>
    if (r2.takeWhile isPyDigit).isEmpty then 'r' :: 'c' :: r2
    else r2.dropWhile isPyDigit
  | _ => r

/-- Optional group `(?:\.(post|dev)(\d+))?` of `pep440_pattern`. -/
def optPostDev (r : List Char) : List Char :=
  match r with
  | '.' :: 'p' :: 'o' :: 's' :: 't' :: r2 =>
    if (r2.takeWhile isPyDigit).isEmpty then r else r2.dropWhile isPyDigit
  | '.' :: 'd' :: 'e' :: 'v' :: r2 =>
    if (r2.takeWhile isPyDigit).isEmpty then r else r2.dropWhile isPyDigit
  | _ => r

/-- Full-anchored match of
`^(\d+)(?:\.(\d+))?(?:\.(\d+))?(?:([ab]|rc)(\d+))?(?:\.(post|dev)(\d+))?$`
(only its success/failure is used, by `detect_scheme`). -/
def pep440MatchL (l : List Char) : Bool :=
  let d1 := l.takeWhile isPyDigit
  if d1.isEmpty then false
  else (optPostDev (optAbRc (optDotNum (optDotNum (l.dropWhile isPyDigit))))).isEmpty

/-- Source `VersionScheme` enum of `version_matcher.py`. -/
inductive VScheme
  | semver
  | calver
  | pep440
  | debian
  | rpm
  | custom
deriving DecidableEq, Repr

/-- Source `VersionComparison.detect_scheme`: pattern matches in order, then the
Debian (`:` and `-` present) and RPM (at least two `-`) heuristics, else
custom. -/
def detect_scheme (s : String) : VScheme :=
  if (semverMatchL s.data).isSome then .semver
  else if (calverMatchL s.data).isSome then .calver
  else if pep440MatchL s.data then .pep440
  else if s.data.contains ':' && s.data.contains '-' then .debian
  else if 2 ≤ (s.data.filter (· = '-')).length then .rpm
  else .custom

/-- Source `VersionComparison.parse_semver`: an unmatched input yields the all-zero
tuple `(0, 0, 0, '', '')`. -/
def parse_semver (s : String) : SemParse :=
  match semverMatchL s.data with
  | some p => p
  | none => ⟨0, 0, 0, [], []⟩

/-- Source `VersionComparison.parse_calver`: an unmatched input yields
`(0, 0, 0, 0, '')`. -/
def parse_calver (s : String) : CalParse :=
  match calverMatchL s.data with
  | some p => p
  | none => ⟨0, 0, 0, 0, []⟩

/-! ### `version_matcher.py`: comparison -/

/-- Three-way compare of two naturals (`-1`/`0`/`1`), the shape of the
`if p1[i] < p2[i] ... elif p1[i] > p2[i]` steps. -/
def cmpN (a b : Nat) : Int :=
  if a < b then -1 else if b < a then 1 else 0

/-- The prerelease comparison block shared by `compare_semver` and
`compare_calver`: a present prerelease sorts before an absent one, two
present prereleases compare as Python strings, otherwise equal. -/
def preCmp (p q : List Char) : Int :=
  if p ≠ [] ∧ q = [] then -1
  else if p = [] ∧ q ≠ [] then 1
  else if p ≠ [] ∧ q ≠ [] then strCmp p q
  else 0

/-- Source `VersionComparison.compare_semver`: the `for i in range(3)` loop with
early returns, then the prerelease block. -/
def compare_semver (v1 v2 : String) : Int :=
  let p1 := parse_semver v1
  let p2 := parse_semver v2
  if p1.major < p2.major then -1
  else if p2.major < p1.major then 1
  else if p1.minor < p2.minor then -1
  else if p2.minor < p1.minor then 1
  else if p1.patch < p2.patch then -1
  else if p2.patch < p1.patch then 1
  else preCmp p1.pre p2.pre

/-- Source `VersionComparison.compare_calver`: the `for i in range(4)` loop with
early returns, then the prerelease block. -/
def compare_calver (v1 v2 : String) : Int :=
  let p1 := parse_calver v1
  let p2 := parse_calver v2
  if p1.year < p2.year then -1
  else if p2.year < p1.year then 1
  else if p1.month < p2.month then -1
  else if p2.month < p1.month then 1
  else if p1.day < p2.day then -1
  else if p2.day < p1.day then 1
  else if p1.micro < p2.micro then -1
  else if p2.micro < p1.micro then 1
  else preCmp p1.pre p2.pre

/-- Source `VersionComparison.compare_versions`: scheme-specific compare when the
detected schemes agree and are semver/calver, else Python string
comparison of the raw inputs. -/
def compare_versions (v1 v2 : String) : Int :=
  let s1 := detect_scheme v1
  let s2 := detect_scheme v2
  if s1 = s2 ∧ s1 = .semver then compare_semver v1 v2
  else if s1 = s2 ∧ s1 = .calver then compare_calver v1 v2
  else strCmp v1.data v2.data

/-! ### Lawfulness of the three-way comparators

`LawCmp c` packages the properties claimed of `compare_versions` within a
scheme: reflexivity (`c a a = 0`), sign antisymmetry and transitivity of
`c · · ≤ 0`. -/

/-- The laws of a three-way comparator: `c a a = 0`, `c b a = -(c a b)`,
and transitivity of the nonpositive relation. -/
def LawCmp {α : Type _} (c : α → α → Int) : Prop :=
  (∀ a, c a a = 0) ∧ (∀ a b, c b a = -(c a b)) ∧
    (∀ a b d, c a b ≤ 0 → c b d ≤ 0 → c a d ≤ 0)

/-- Lexicographic combination of two three-way compares: the second is
consulted only when the first ties (the shape of the early-return loops in
`compare_semver`/`compare_calver`). -/
def lexI (x y : Int) : Int := if x = 0 then y else x

theorem lawCmp_cmpN : LawCmp cmpN := by
  refine ⟨fun a => ?_, fun a b => ?_, fun a b d h1 h2 => ?_⟩ <;>
    unfold cmpN at * <;> split_ifs at * <;> omega

theorem strCmp_self (a : List Char) : strCmp a a = 0 := by
  induction a with
  | nil => rfl
  | cons c as ih => simp [strCmp, ih]

theorem strCmp_antisym (a b : List Char) : strCmp b a = -(strCmp a b) := by
  induction a generalizing b with
  | nil => cases b <;> rfl
  | cons c as ih =>
    cases b with
    | nil => rfl
    | cons d bs =>
      simp only [strCmp]
      split_ifs <;> first | omega | exact ih bs

theorem strCmp_trans (a b d : List Char) (h1 : strCmp a b ≤ 0)
    (h2 : strCmp b d ≤ 0) : strCmp a d ≤ 0 := by
  induction a generalizing b d with
  | nil => cases d <;> simp [strCmp]
  | cons c as ih =>
    cases b with
    | nil => simp [strCmp] at h1
    | cons e bs =>
      cases d with
      | nil => simp [strCmp] at h2
      | cons f ds =>
        simp only [strCmp] at h1 h2 ⊢
        split_ifs at h1 h2 ⊢ <;> first | omega | exact ih bs ds h1 h2

theorem lawCmp_strCmp : LawCmp strCmp :=
  ⟨strCmp_self, strCmp_antisym, strCmp_trans⟩

theorem lawCmp_lexI {α β γ : Type _} {c1 : α → α → Int} {c2 : β → β → Int}
    (f : γ → α) (g : γ → β) (h1 : LawCmp c1) (h2 : LawCmp c2) :
    LawCmp (fun x y => lexI (c1 (f x) (f y)) (c2 (g x) (g y))) := by
  obtain ⟨r1, s1, t1⟩ := h1
  obtain ⟨r2, s2, t2⟩ := h2
  refine ⟨fun a => ?_, fun a b => ?_, fun a b d hab hbd => ?_⟩
  · simp [lexI, r1, r2]
  · by_cases h : c1 (f a) (f b) = 0
    · have h' : c1 (f b) (f a) = 0 := by rw [s1]; omega
      simp [lexI, h, h', s2 (g a) (g b)]
    · have h' : c1 (f b) (f a) ≠ 0 := by rw [s1]; omega
      simp [lexI, h, h', s1 (f a) (f b)]
  · simp only [lexI] at hab hbd ⊢
    by_cases e1 : c1 (f a) (f b) = 0
    · by_cases e2 : c1 (f b) (f d) = 0
      · have had : c1 (f a) (f d) ≤ 0 := t1 _ _ _ (le_of_eq e1) (le_of_eq e2)
        have hda : c1 (f d) (f a) ≤ 0 :=
          t1 _ _ _ (by rw [s1 (f b) (f d)]; omega) (by rw [s1 (f a) (f b)]; omega)
        have h0 : c1 (f a) (f d) = 0 := by have := s1 (f a) (f d); omega
        rw [if_pos e1] at hab
        rw [if_pos e2] at hbd
        rw [if_pos h0]
        exact t2 _ _ _ hab hbd
      · have hbd' : c1 (f b) (f d) < 0 := by
          rw [if_neg e2] at hbd; omega
        have had : c1 (f a) (f d) ≤ 0 := t1 _ _ _ (le_of_eq e1) hbd'.le
        have hne : c1 (f a) (f d) ≠ 0 := by
          intro h0
          have hdb : c1 (f d) (f b) ≤ 0 :=
            t1 _ _ _ (by rw [s1 (f a) (f d)]; omega) (le_of_eq e1)
          have := s1 (f b) (f d)
          omega
        rw [if_neg hne]
        exact had
    · have hab' : c1 (f a) (f b) < 0 := by
        rw [if_neg e1] at hab; omega
      have hbd0 : c1 (f b) (f d) ≤ 0 := by
        by_cases e2 : c1 (f b) (f d) = 0
        · exact le_of_eq e2
        · rw [if_neg e2] at hbd; exact hbd
      have had : c1 (f a) (f d) ≤ 0 := t1 _ _ _ hab'.le hbd0
      have hne : c1 (f a) (f d) ≠ 0 := by
        intro h0
        have hba : c1 (f b) (f a) ≤ 0 :=
          t1 _ _ _ hbd0 (by rw [s1 (f a) (f d)]; omega)
        have := s1 (f a) (f b)
        omega
      rw [if_neg hne]
      exact had

theorem lawCmp_comap {α γ : Type _} {c : α → α → Int} (f : γ → α)
    (h : LawCmp c) : LawCmp (fun x y => c (f x) (f y)) :=
  ⟨fun a => h.1 _, fun a b => h.2.1 _ _, fun a b d => h.2.2 _ _ _⟩

theorem preCmp_eq (p q : List Char) :
    preCmp p q =
      lexI (cmpN (if p = [] then 1 else 0) (if q = [] then 1 else 0))
        (strCmp p q) := by
  unfold preCmp lexI cmpN
  by_cases hp : p = [] <;> by_cases hq : q = [] <;>
    simp [hp, hq, strCmp]

theorem lawCmp_preCmp : LawCmp preCmp := by
  have h := lawCmp_lexI (fun p : List Char => if p = [] then (1 : Nat) else 0)
    id lawCmp_cmpN lawCmp_strCmp
  have e : preCmp = fun p q =>
      lexI (cmpN (if p = [] then 1 else 0) (if q = [] then 1 else 0))
        (strCmp p q) :=
    funext fun p => funext fun q => preCmp_eq p q
  rw [e]
  exact h

/-- Source `compare_semver` on already-parsed tuples, written as a lexicographic
chain (provably the same as the early-return loop). -/
def semCmpP (p q : SemParse) : Int :=
  lexI (cmpN p.major q.major)
    (lexI (cmpN p.minor q.minor)
      (lexI (cmpN p.patch q.patch) (preCmp p.pre q.pre)))

/-- Source `compare_calver` on already-parsed tuples as a lexicographic chain. -/
def calCmpP (p q : CalParse) : Int :=
  lexI (cmpN p.year q.year)
    (lexI (cmpN p.month q.month)
      (lexI (cmpN p.day q.day)
        (lexI (cmpN p.micro q.micro) (preCmp p.pre q.pre))))

theorem lawCmp_semCmpP : LawCmp semCmpP :=
  lawCmp_lexI SemParse.major id lawCmp_cmpN
    (lawCmp_lexI SemParse.minor id lawCmp_cmpN
      (lawCmp_lexI SemParse.patch SemParse.pre lawCmp_cmpN lawCmp_preCmp))

theorem lawCmp_calCmpP : LawCmp calCmpP :=
  lawCmp_lexI CalParse.year id lawCmp_cmpN
    (lawCmp_lexI CalParse.month id lawCmp_cmpN
      (lawCmp_lexI CalParse.day id lawCmp_cmpN
        (lawCmp_lexI CalParse.micro CalParse.pre lawCmp_cmpN lawCmp_preCmp)))

theorem lexI_cmpN (a b : Nat) (r : Int) :
    lexI (cmpN a b) r = if a < b then -1 else if b < a then 1 else r := by
  rcases Nat.lt_trichotomy a b with h | h | h
  · simp [lexI, cmpN, h, Nat.lt_asymm h]
  · simp [lexI, cmpN, h, Nat.lt_irrefl]
  · simp [lexI, cmpN, h, Nat.lt_asymm h]

theorem compare_semver_eq (v1 v2 : String) :
    compare_semver v1 v2 = semCmpP (parse_semver v1) (parse_semver v2) := by
  simp only [compare_semver, semCmpP, lexI_cmpN]

theorem compare_calver_eq (v1 v2 : String) :
    compare_calver v1 v2 = calCmpP (parse_calver v1) (parse_calver v2) := by
  simp only [compare_calver, calCmpP, lexI_cmpN]

theorem lawCmp_compare_semver : LawCmp compare_semver := by
  have h := lawCmp_comap parse_semver lawCmp_semCmpP
  refine ⟨fun a => ?_, fun a b => ?_, fun a b d h1 h2 => ?_⟩
  · rw [compare_semver_eq]; exact h.1 a
  · rw [compare_semver_eq, compare_semver_eq]; exact h.2.1 a b
  · rw [compare_semver_eq] at h1 h2 ⊢; exact h.2.2 a b d h1 h2

theorem lawCmp_compare_calver : LawCmp compare_calver := by
  have h := lawCmp_comap parse_calver lawCmp_calCmpP
  refine ⟨fun a => ?_, fun a b => ?_, fun a b d h1 h2 => ?_⟩
  · rw [compare_calver_eq]; exact h.1 a
  · rw [compare_calver_eq, compare_calver_eq]; exact h.2.1 a b
  · rw [compare_calver_eq] at h1 h2 ⊢; exact h.2.2 a b d h1 h2

theorem compare_versions_sem {v1 v2 : String}
    (h1 : detect_scheme v1 = .semver) (h2 : detect_scheme v2 = .semver) :
    compare_versions v1 v2 = compare_semver v1 v2 := by
  unfold compare_versions
  rw [h1, h2]
  simp

theorem compare_versions_cal {v1 v2 : String}
    (h1 : detect_scheme v1 = .calver) (h2 : detect_scheme v2 = .calver) :
    compare_versions v1 v2 = compare_calver v1 v2 := by
  unfold compare_versions
  rw [h1, h2]
  simp

theorem compare_versions_other {v1 v2 : String} {s : VScheme}
    (h1 : detect_scheme v1 = s) (h2 : detect_scheme v2 = s)
    (hn1 : s ≠ .semver) (hn2 : s ≠ .calver) :
    compare_versions v1 v2 = strCmp v1.data v2.data := by
  unfold compare_versions
  rw [h1, h2]
  simp [hn1, hn2]

/-- Helper: the C8 properties hold whenever the three strings share a
detected scheme. -/
theorem lawCmp_strings {a b c : String} {s : VScheme}
    (ha : detect_scheme a = s) (hb : detect_scheme b = s)
    (hc : detect_scheme c = s) :
    compare_versions a a = 0 ∧
      compare_versions b a = -(compare_versions a b) ∧
      (compare_versions a b ≤ 0 → compare_versions b c ≤ 0 →
        compare_versions a c ≤ 0) := by
  by_cases hsem : s = .semver
  · subst hsem
    rw [compare_versions_sem ha ha, compare_versions_sem ha hb,
      compare_versions_sem hb ha, compare_versions_sem hb hc,
      compare_versions_sem ha hc]
    exact ⟨lawCmp_compare_semver.1 a, lawCmp_compare_semver.2.1 a b,
      lawCmp_compare_semver.2.2 a b c⟩
  by_cases hcal : s = .calver
  · subst hcal
    rw [compare_versions_cal ha ha, compare_versions_cal ha hb,
      compare_versions_cal hb ha, compare_versions_cal hb hc,
      compare_versions_cal ha hc]
    exact ⟨lawCmp_compare_calver.1 a, lawCmp_compare_calver.2.1 a b,
      lawCmp_compare_calver.2.2 a b c⟩
  · rw [compare_versions_other ha ha hsem hcal,
      compare_versions_other ha hb hsem hcal,
      compare_versions_other hb ha hsem hcal,
      compare_versions_other hb hc hsem hcal,
      compare_versions_other ha hc hsem hcal]
    exact ⟨strCmp_self _, strCmp_antisym _ _, strCmp_trans _ _ _⟩

/-- C8: for all version strings `a, b, c` whose detected scheme is the same,
`compare_versions` is a total preorder: `compare(a,a) = 0`, the sign is
antisymmetric (`compare(b,a) = -compare(a,b)`), and `compare · · ≤ 0` is
transitive. -/
theorem compare_versions_total_preorder (a b c : String)
    (hab : detect_scheme a = detect_scheme b)
    (hbc : detect_scheme b = detect_scheme c) :
    compare_versions a a = 0 ∧
      compare_versions b a = -(compare_versions a b) ∧
      (compare_versions a b ≤ 0 → compare_versions b c ≤ 0 →
        compare_versions a c ≤ 0) :=
  lawCmp_strings rfl hab.symm (hab.trans hbc).symm

/-- Witness for C8 at three concrete semver strings. -/
theorem compare_versions_total_preorder_witness :
    compare_versions "1.2.3" "1.2.3" = 0 ∧
      compare_versions "1.2.10" "1.2.3" = -(compare_versions "1.2.3" "1.2.10") ∧
      (compare_versions "1.2.3" "1.2.10" ≤ 0 →
        compare_versions "1.2.10" "2.0.0" ≤ 0 →
        compare_versions "1.2.3" "2.0.0" ≤ 0) :=
  compare_versions_total_preorder "1.2.3" "1.2.10" "2.0.0" (by decide) (by decide)

/-! ### `version_matcher.py`: `VersionRange` -/

/-- The regex class `[<>=!]` of `range_pattern`. -/
def isOpChar (c : Char) : Bool := c = '<' || c = '>' || c = '=' || c = '!'

/-- Source `range_pattern.match`: Python `re.match(r'([<>=!]+)\s*([^\s,]+)', s)`.
The deterministic reading of the backtracking search: take the maximal
operator run; if no version token follows (after optional whitespace), the
engine backtracks one operator character, which then serves as the
one-character version token (observable on inputs such as `"<="`, which
matches as `('<', '=')`). -/
def rangeReMatch (s : List Char) : Option (List Char × List Char) :=
  let ops := s.takeWhile isOpChar
  if ops = [] then none
  else
    let rest := s.dropWhile isOpChar
    let ver := (rest.dropWhile isPySpace).takeWhile fun c => !isPySpace c && c ≠ ','
    if ver ≠ [] then some (ops, ver)
    else if 2 ≤ ops.length then
      match ops.getLast? with
      | some last => some (ops.dropLast, [last])
      | none => none
    else none

/-- One iteration of the `for part in range_str.split(',')` loop of
`VersionRange.parse_range`: strip, skip empties, handle the verbose
`"up to [excluding ]X"` forms, otherwise try `range_pattern`; a part that
matches nothing contributes no constraint. -/
def parseRangePart (part : List Char) : Option (List Char × List Char) :=
  let p := pyStripL part
  if p = [] then none
  else if p.take 6 = "up to ".data then
    let version := pyStripL (p.drop 6)
    if version.take 10 = "excluding ".data then
      some (['<'], pyStripL (version.drop 10))
    else some (['<', '='], version)
  else rangeReMatch p

/-- Source `VersionRange.parse_range`: empty or `"*"` (after strip) parses to no
constraints; otherwise the comma-separated parts are processed in order. -/
def parse_range (s : String) : List (List Char × List Char) :=
  if s.data = [] ∨ pyStripL s.data = ['*'] then []
  else (splitSep ',' s.data).filterMap parseRangePart

/-- Source `VersionRange._check_constraint`: dispatch on the operator string.
(The `try` around `compare_versions` is not modelled: the comparison is
total, so the string-compare `except` fallback is unreachable.) -/
def check_constraint (version : String) (op rv : List Char) : Bool :=
  let c := compare_versions version ⟨rv⟩
  if op = ['<'] then decide (c < 0)
  else if op = ['<', '='] then decide (c ≤ 0)
  else if op = ['>'] then decide (0 < c)
  else if op = ['>', '='] then decide (0 ≤ c)
  else if op = ['='] ∨ op = ['=', '='] then decide (c = 0)
  else if op = ['!', '='] then decide (c ≠ 0)
  else if op.take 2 = ['<', '='] then decide (c ≤ 0)
  else if op.take 2 = ['>', '='] then decide (0 ≤ c)
  else if op.take 2 = ['!', '='] then decide (c ≠ 0)
  else false

/-- Source `VersionRange.matches_version`: empty/`"*"` ranges always match;
otherwise every parsed constraint must hold (the loop returns `False` on
the first failing constraint). -/
def matches_version (v r : String) : Bool :=
  if r.data = [] ∨ pyStripL r.data = ['*'] then true
  else
    let ranges := parse_range r
    if ranges = [] then true
    else ranges.all fun p => check_constraint v p.1 p.2

/-- C7: `range_matches(v, "*")` and `range_matches(v, "")` hold for every
`v`; for any range expression a version matches iff it satisfies every
comma-separated constraint (a conjunction, never a disjunction); and the
two concrete facts `range_matches("1.2.3", "<1.2.4,>=1.2.0") = true`,
`range_matches("1.2.4", "<1.2.4") = false` (strict `<`). -/
theorem matches_version_conjunction :
    (∀ v : String, matches_version v "*" = true) ∧
      (∀ v : String, matches_version v "" = true) ∧
      (∀ v r : String,
        matches_version v r =
          (parse_range r).all fun p => check_constraint v p.1 p.2) ∧
      matches_version "1.2.3" "<1.2.4,>=1.2.0" = true ∧
      matches_version "1.2.4" "<1.2.4" = false := by
  refine ⟨fun v => rfl, fun v => rfl, fun v r => ?_, by decide, by decide⟩
  unfold matches_version parse_range
  by_cases h : r.data = [] ∨ pyStripL r.data = ['*']
  · rw [if_pos h, if_pos h]
    rfl
  · rw [if_neg h, if_neg h]
    by_cases h2 : (splitSep ',' r.data).filterMap parseRangePart = []
    · rw [h2, if_pos rfl]
      rfl
    · rw [if_neg h2]

/-- C10: a comma-separated part that (after stripping) does not start with
`"up to "` and does not begin with a comparison-operator character is
silently dropped by `parse_range`; a range expression all of whose parts
are of that form parses to the empty constraint list, and
`matches_version` then accepts every version string. -/
theorem parse_range_drops_bare_parts :
    (∀ part : List Char,
        (pyStripL part).take 6 ≠ "up to ".data →
        (pyStripL part).takeWhile isOpChar = [] →
        parseRangePart part = none) ∧
      (∀ r : String,
        (∀ part ∈ splitSep ',' r.data,
            (pyStripL part).take 6 ≠ "up to ".data ∧
            (pyStripL part).takeWhile isOpChar = []) →
        parse_range r = [] ∧ ∀ v : String, matches_version v r = true) := by
  have hpart : ∀ part : List Char,
      (pyStripL part).take 6 ≠ "up to ".data →
      (pyStripL part).takeWhile isOpChar = [] →
      parseRangePart part = none := by
    intro part h1 h2
    unfold parseRangePart
    by_cases hp : pyStripL part = []
    · rw [if_pos hp]
    · rw [if_neg hp, if_neg h1]
      unfold rangeReMatch
      rw [h2, if_pos rfl]
  have hrange : ∀ r : String,
      (∀ part ∈ splitSep ',' r.data,
          (pyStripL part).take 6 ≠ "up to ".data ∧
          (pyStripL part).takeWhile isOpChar = []) →
      parse_range r = [] := by
    intro r h
    unfold parse_range
    by_cases hc : r.data = [] ∨ pyStripL r.data = ['*']
    · rw [if_pos hc]
    · rw [if_neg hc]
      rw [List.filterMap_eq_nil]
      intro part hm
      exact hpart part (h part hm).1 (h part hm).2
  refine ⟨hpart, fun r h => ⟨hrange r h, fun v => ?_⟩⟩
  unfold matches_version
  by_cases hc : r.data = [] ∨ pyStripL r.data = ['*']
  · rw [if_pos hc]
  · rw [if_neg hc, hrange r h, if_pos rfl]

/-- Witness for C10: the bare version strings `"1.2.3"` and `"1.2.3, 4.5"`
parse to no constraints and match everything. -/
theorem parse_range_drops_bare_parts_witness :
    parse_range "1.2.3, 4.5" = [] ∧
      matches_version "9.9.9" "1.2.3, 4.5" = true := by
  have h := parse_range_drops_bare_parts.2 "1.2.3, 4.5" (by decide)
  exact ⟨h.1, h.2 "9.9.9"⟩

/-! ### `version_matcher.py`: `CPEVersionMatcher` -/

/-- Source `CPEVersionMatcher.extract_cpe_versions`: splits the *full CPE string*
on `:` and reads index 4 (for a `cpe:2.3:part:vendor:product:version:...`
string, index 4 is the **product** field, not the version field — the
function's own comment places the version at the sixth segment). -/
def extract_cpe_versions (cpe : String) : List String :=
  let parts := splitSep ':' cpe.data
  if parts.length < 5 then []
  else
    let p := parts.getD 4 []
    if p = ['*'] then [] else [⟨p⟩]

/-- Maximal runs of digits (`re.findall(r'\d+', s)`); accumulator holds the
current run reversed. -/
def digitRunsGo : List Char → List Char → List (List Char)
  | [], cur => if cur = [] then [] else [cur.reverse]
  | c :: rest, cur =>
    if isPyDigit c then digitRunsGo rest (c :: cur)
    else if cur = [] then digitRunsGo rest []
    else cur.reverse :: digitRunsGo rest []

/-- The numeric components `[int(x) for x in re.findall(r'\d+', s)]`. -/
def digitRuns (l : List Char) : List Nat :=
  (digitRunsGo l []).map digitsToNat

/-- Source `CPEVersionMatcher._calculate_version_similarity`: `1.0` on a tied
semantic compare, else digit runs compared pairwise (padded with `0`), an
equal pair scoring `1`, a pair differing by at most `1` scoring `0.5`,
normalized by the longer run count.  (The `except` fallback is
unreachable: nothing in the body raises.) -/
def calculate_version_similarity (v1 v2 : String) : ℚ :=
  if compare_versions v1 v2 = 0 then 1
  else
    let r1 := digitRuns v1.data
    let r2 := digitRuns v2.data
    if r1 = [] ∨ r2 = [] then 0
    else
      let maxParts := max r1.length r2.length
      let score := (List.range maxParts).foldl
        (fun acc i =>
          let a := r1.getD i 0
          let b := r2.getD i 0
          if a = b then acc + 1
          else if ((a : Int) - b).natAbs ≤ 1 then acc + 1 / 2
          else acc)
        (0 : ℚ)
      score / maxParts

/-- The `for cpe_version in cpe_versions` loop of
`CPEVersionMatcher.match_cpe_version` with its early returns and the
running `best_match` / `best_confidence` state. -/
def mcvLoop (sv : String) : List String → Bool → ℚ → Bool × ℚ
  | [], bm, bc => (bm, bc)
  | cv :: rest, bm, bc =>
    if sv = cv then (true, 1)
    else if matches_version sv cv = true then (true, 9 / 10)
    else
      let sim := calculate_version_similarity sv cv
      if bc < sim then mcvLoop sv rest (decide (7 / 10 < sim)) sim
      else mcvLoop sv rest bm bc

/-- Source `CPEVersionMatcher.match_cpe_version`: returns
`(matches, confidence)`. -/
def match_cpe_version (software_version cpe_string : String) : Bool × ℚ :=
  if cpe_string.data = [] ∨ cpe_string = "*" then (true, 1 / 2)
  else
    let cpe_versions := extract_cpe_versions cpe_string
    if cpe_versions = [] then (true, 1 / 2)
    else mcvLoop software_version cpe_versions false 0

/-! ### `ai_matching/cpe_matcher.py`: `CPEMatcher` -/

/-- The dictionary produced by `CPEMatcher._parse_cpe_string` (the
structured identifier of the identifier model: the full string plus the
vendor/product/version/update/edition segments). -/
structure ParsedCPE where
  cpe_string : String
  vendor : String
  product : String
  version : String
  update : String
  edition : String
deriving DecidableEq, Repr

/-- Source `CPEMatcher._parse_cpe_string`: requires at least 6 colon-separated
segments (else `None`); missing trailing segments default to `''`. -/
def parse_cpe_string (cpe : String) : Option ParsedCPE :=
  let parts := splitSep ':' cpe.data
  if parts.length < 6 then none
  else
    some
      { cpe_string := cpe
        vendor := ⟨parts.getD 3 []⟩
        product := ⟨parts.getD 4 []⟩
        version := ⟨parts.getD 5 []⟩
        update := ⟨parts.getD 6 []⟩
        edition := ⟨parts.getD 7 []⟩ }

/-- Source `CPEMatcher._match_version_range`: missing version info on either side
gives `(True, 0.5)`; otherwise delegates to
`CPEVersionMatcher.match_cpe_version` with the full CPE string. -/
def match_version_range (software_version cpe_version cpe_string : String) :
    Bool × ℚ :=
  if software_version.data = [] ∨ cpe_version.data = [] then (true, 1 / 2)
  else match_cpe_version software_version cpe_string

/-- Source `CPEMatcher._calculate_confidence`: the combined-score label. -/
def calculate_confidence (score : ℚ) : String :=
  if 4 / 5 < score then "HIGH"
  else if 3 / 5 < score then "MEDIUM"
  else if 2 / 5 < score then "LOW"
  else "VERY_LOW"

/-- A candidate as assembled in `CPEMatcher.match_software_to_cpe` (entry
copy plus the added scoring fields). -/
structure AIMatch where
  entry : ParsedCPE
  similarity_score : ℚ
  version_match : Bool
  version_confidence : ℚ
  combined_confidence : ℚ
  confidence : String
deriving DecidableEq, Repr

/-- Source `CPEMatcher.match_software_to_cpe`.  `cpe_data` pairs each index entry
with its cosine similarity against the query text (the TF-IDF vectorizer
is an opaque collaborator, so the similarities are an input of the model;
`software_name`/`vendor` influence only those similarities).  `np.argsort`
descending followed by `[:20]` is modelled as a stable descending sort
(tie order among equal similarities is unspecified in the source). -/
def match_software_to_cpe (cpe_data : List (ParsedCPE × ℚ)) (version : String) :
    List AIMatch :=
  if cpe_data = [] then []
  else
    let top := (List.insertionSort (fun a b : ParsedCPE × ℚ => b.2 ≤ a.2) cpe_data).take 20
    let ms := top.filterMap fun e =>
      if 1 / 10 < e.2 then
        let vm := match_version_range version e.1.version e.1.cpe_string
        let cc := e.2 * (6 / 10) + vm.2 * (4 / 10)
        some ⟨e.1, e.2, vm.1, vm.2, cc, calculate_confidence cc⟩
      else none
    (List.insertionSort
      (fun a b : AIMatch => b.combined_confidence ≤ a.combined_confidence)
      ms).take 10

/-! ### `ai_matching/hybrid_cpe_matcher.py`: legacy adapter -/

/-- Source `HybridCPEMatcher._score_to_confidence`: note the thresholds `0.85` and
`0.65`, and the absence of a `VERY_LOW` label. -/
def score_to_confidence (score : ℚ) : String :=
  if 17 / 20 < score then "HIGH"
  else if 13 / 20 < score then "MEDIUM"
  else "LOW"

/-- The adapted candidate dictionaries built by
`HybridCPEMatcher.match_software_to_cpe` from the semantic service results
`(cpe, score, method)`: the raw score is passed through as
`combined_confidence` and labelled by `_score_to_confidence`. -/
structure HybridMatch where
  cpe_string : String
  confidence : String
  combined_confidence : ℚ
  source : String
deriving DecidableEq, Repr

/-- The adaptation loop of `HybridCPEMatcher.match_software_to_cpe`. -/
def hybrid_match_adapt (results : List (String × ℚ × String)) :
    List HybridMatch :=
  results.map fun r => ⟨r.1, score_to_confidence r.2.1, r.2.1, r.2.2⟩

unseal Rat.mul Rat.add Rat.inv in
/-- C3 (failing input): for the candidate CPE
`cpe:2.3:a:nginx:nginx:1.18.0:*:*:*:*:*:*:*` whose version field equals
the query version `"1.18.0"`, the claim expects the exact-equality branch
`(match, 1.0)`; the code instead extracts index 4 — the product field
`"nginx"` — and, since the bare string `"nginx"` parses to an empty
constraint list, returns the range-match result `(True, 0.9)`. -/
theorem match_version_range_reads_product_field :
    (parse_cpe_string "cpe:2.3:a:nginx:nginx:1.18.0:*:*:*:*:*:*:*").map
        ParsedCPE.version = some "1.18.0" ∧
      extract_cpe_versions "cpe:2.3:a:nginx:nginx:1.18.0:*:*:*:*:*:*:*" =
        ["nginx"] ∧
      match_version_range "1.18.0" "1.18.0"
        "cpe:2.3:a:nginx:nginx:1.18.0:*:*:*:*:*:*:*" = (true, 9 / 10) := by
  refine ⟨by decide, by decide, by decide⟩

unseal Rat.mul Rat.add Rat.inv in
/-- C6 (counterexample): the legacy hybrid adapter labels a candidate whose
`combined_confidence` is `0.82` as `MEDIUM` (its thresholds are
`0.85`/`0.65`), although `0.82 > 0.8` and the claimed derivation — the one
`CPEMatcher._calculate_confidence` implements — yields `HIGH`. -/
theorem hybrid_label_thresholds_counterexample :
    (hybrid_match_adapt [("cpe:2.3:a:nginx:nginx:1:*:*:*:*:*:*:*", 41 / 50,
        "semantic")]).map HybridMatch.confidence = ["MEDIUM"] ∧
      (hybrid_match_adapt [("cpe:2.3:a:nginx:nginx:1:*:*:*:*:*:*:*", 41 / 50,
        "semantic")]).map HybridMatch.combined_confidence = [41 / 50] ∧
      (4 / 5 : ℚ) < 41 / 50 ∧
      calculate_confidence (41 / 50) = "HIGH" := by
  refine ⟨by decide, by decide, by decide, by decide⟩

/-- C6 (amended): in `CPEMatcher.match_software_to_cpe` every returned
candidate has `combined_confidence = raw_score * 0.6 + version_confidence
* 0.4` with the label derived by `_calculate_confidence`
(`>0.8 → HIGH, >0.6 → MEDIUM, >0.4 → LOW, else VERY_LOW`), and the list is
sorted by `combined_confidence` descending and truncated to the top 10;
the legacy `HybridCPEMatcher` wrapper instead passes the raw semantic
score through as `combined_confidence` and labels it with
`_score_to_confidence` (thresholds `0.85`/`0.65`, never `VERY_LOW`). -/
theorem match_software_to_cpe_confidence (cpe_data : List (ParsedCPE × ℚ))
    (version : String) :
    (∀ m ∈ match_software_to_cpe cpe_data version,
        m.combined_confidence =
          m.similarity_score * (6 / 10) + m.version_confidence * (4 / 10) ∧
        m.confidence = calculate_confidence m.combined_confidence ∧
        (m.version_match, m.version_confidence) =
          match_version_range version m.entry.version m.entry.cpe_string) ∧
      (match_software_to_cpe cpe_data version).length ≤ 10 ∧
      (match_software_to_cpe cpe_data version).Pairwise
        (fun a b => b.combined_confidence ≤ a.combined_confidence) ∧
      (∀ rs : List (String × ℚ × String), ∀ h ∈ hybrid_match_adapt rs,
        h.confidence = score_to_confidence h.combined_confidence ∧
        (h.cpe_string, h.combined_confidence, h.source) ∈ rs) := by
  have hhyb : ∀ rs : List (String × ℚ × String), ∀ h ∈ hybrid_match_adapt rs,
      h.confidence = score_to_confidence h.combined_confidence ∧
      (h.cpe_string, h.combined_confidence, h.source) ∈ rs := by
    intro rs h hm
    unfold hybrid_match_adapt at hm
    obtain ⟨r, hr, rfl⟩ := List.mem_map.mp hm
    exact ⟨rfl, hr⟩
  by_cases hd : cpe_data = []
  · simp only [match_software_to_cpe, if_pos hd]
    simp only [List.not_mem_nil, false_implies, implies_true, List.length_nil,
      List.Pairwise.nil, true_and]
    refine ⟨by omega, hhyb⟩
  · simp only [match_software_to_cpe, if_neg hd]
    refine ⟨?_, ?_, ?_, hhyb⟩
    · intro m hm
      have hm1 := List.mem_of_mem_take hm
      have hm2 := (List.perm_insertionSort
        (fun a b : AIMatch => b.combined_confidence ≤ a.combined_confidence)
        _).mem_iff.mp hm1
      obtain ⟨e, he, hFe⟩ := List.mem_filterMap.mp hm2
      by_cases hs : 1 / 10 < e.2
      · rw [if_pos hs] at hFe
        obtain rfl := Option.some.inj hFe
        exact ⟨rfl, rfl, Prod.mk.eta⟩
      · rw [if_neg hs] at hFe
        exact absurd hFe (by simp)
    · exact List.length_take_le _ _
    · letI : IsTotal AIMatch
          (fun a b => b.combined_confidence ≤ a.combined_confidence) :=
        ⟨fun a b => le_total b.combined_confidence a.combined_confidence⟩
      letI : IsTrans AIMatch
          (fun a b => b.combined_confidence ≤ a.combined_confidence) :=
        ⟨fun a b c h1 h2 => le_trans h2 h1⟩
      exact List.Pairwise.sublist (List.take_sublist _ _)
        (List.sorted_insertionSort _ _)

/-- Witness for C6 at a concrete one-entry index. -/
theorem match_software_to_cpe_confidence_witness :
    (match_software_to_cpe
        [(⟨"cpe:2.3:a:nginx:nginx:1.18.0:*:*:*:*:*:*:*", "nginx", "nginx",
            "1.18.0", "*", "*"⟩, 9 / 10)] "1.18.0").length ≤ 10 :=
  (match_software_to_cpe_confidence
    [(⟨"cpe:2.3:a:nginx:nginx:1.18.0:*:*:*:*:*:*:*", "nginx", "nginx",
        "1.18.0", "*", "*"⟩, 9 / 10)] "1.18.0").2.1

/-! ### Identifier model round trip (C9)

`CPEMatcher._parse_cpe_string` is the parser of the identifier model.  The
repository has no serializer; `serialize_cpe` is modelled from the spec
(§3 `CPEIdentifier`, §4.2): the canonical `cpe:2.3:`-prefixed colon join
of the 11 canonical fields. -/

/-- Join with a separator character (Python `sep.join(fields)`). -/
def joinSep (sep : Char) : List (List Char) → List Char
  | [] => []
  | [a] => a
  | a :: rest => a ++ sep :: joinSep sep rest

theorem splitSep_no_sep (sep : Char) (a : List Char) (h : sep ∉ a) :
    splitSep sep a = [a] := by
  induction a with
  | nil => rfl
  | cons c cs ih =>
    have h1 : ¬ c = sep := fun e => h (e ▸ List.mem_cons_self c cs)
    have h2 : sep ∉ cs := fun m => h (List.mem_cons_of_mem _ m)
    simp only [splitSep]
    rw [if_neg h1, ih h2]

theorem splitSep_append (sep : Char) (a t : List Char) (h : sep ∉ a) :
    splitSep sep (a ++ sep :: t) = a :: splitSep sep t := by
  induction a with
  | nil => simp [splitSep]
  | cons c cs ih =>
    have h1 : ¬ c = sep := fun e => h (e ▸ List.mem_cons_self c cs)
    have h2 : sep ∉ cs := fun m => h (List.mem_cons_of_mem _ m)
    simp only [List.cons_append, splitSep]
    rw [if_neg h1, List.append_eq, ih h2]

theorem splitSep_joinSep (sep : Char) (ls : List (List Char))
    (h : ∀ l ∈ ls, sep ∉ l) (hne : ls ≠ []) :
    splitSep sep (joinSep sep ls) = ls := by
  induction ls with
  | nil => exact absurd rfl hne
  | cons a rest ih =>
    cases rest with
    | nil => exact splitSep_no_sep sep a (h a (List.mem_cons_self a []))
    | cons b rs =>
      have hj : joinSep sep (a :: b :: rs) = a ++ sep :: joinSep sep (b :: rs) :=
        rfl
      rw [hj, splitSep_append sep a _ (h a (List.mem_cons_self _ _)),
        ih (fun l hl => h l (List.mem_cons_of_mem _ hl)) (by simp)]

/-- Modelled from the spec: the structured `CPEIdentifier` of §3, the 11
canonical fields of a `cpe:2.3` identifier.  The source parses this shape
(`_parse_cpe_string`) but never serializes it; the spec's `serialize` is
the canonical colon join (`serialize_cpe` below). -/
structure CPEIdent where
  part : String
  vendor : String
  product : String
  version : String
  update : String
  edition : String
  language : String
  sw_edition : String
  target_sw : String
  target_hw : String
  other : String
deriving DecidableEq, Repr

/-- Modelled from the spec: `serialize` of the identifier model — the
canonical `cpe:2.3:part:vendor:product:version:update:edition:language:`
`sw_edition:target_sw:target_hw:other` string. -/
def serialize_cpe (x : CPEIdent) : String :=
  ⟨joinSep ':'
    ["cpe".data, "2.3".data, x.part.data, x.vendor.data, x.product.data,
      x.version.data, x.update.data, x.edition.data, x.language.data,
      x.sw_edition.data, x.target_sw.data, x.target_hw.data, x.other.data]⟩

/-- Well-formedness of an identifier: no field contains the `:` delimiter. -/
def cpeNoColon (x : CPEIdent) : Prop :=
  ':' ∉ x.part.data ∧ ':' ∉ x.vendor.data ∧ ':' ∉ x.product.data ∧
    ':' ∉ x.version.data ∧ ':' ∉ x.update.data ∧ ':' ∉ x.edition.data ∧
    ':' ∉ x.language.data ∧ ':' ∉ x.sw_edition.data ∧
    ':' ∉ x.target_sw.data ∧ ':' ∉ x.target_hw.data ∧ ':' ∉ x.other.data

/-- C9: for every well-formed identifier, serializing and re-parsing
succeeds and reproduces an equivalent identifier: the parse recovers every
structured field the source's identifier model carries
(vendor/product/version/update/edition) exactly, together with the full
canonical string. -/
theorem parse_serialize_round_trip (x : CPEIdent) (h : cpeNoColon x) :
    parse_cpe_string (serialize_cpe x) =
      some
        { cpe_string := serialize_cpe x
          vendor := x.vendor
          product := x.product
          version := x.version
          update := x.update
          edition := x.edition } := by
  obtain ⟨h1, h2, h3, h4, h5, h6, h7, h8, h9, h10, h11⟩ := h
  have hsplit : splitSep ':' (serialize_cpe x).data =
      ["cpe".data, "2.3".data, x.part.data, x.vendor.data, x.product.data,
        x.version.data, x.update.data, x.edition.data, x.language.data,
        x.sw_edition.data, x.target_sw.data, x.target_hw.data,
        x.other.data] := by
    apply splitSep_joinSep
    · intro l hl
      simp only [List.mem_cons, List.not_mem_nil, or_false] at hl
      rcases hl with rfl | rfl | rfl | rfl | rfl | rfl | rfl | rfl | rfl |
        rfl | rfl | rfl | rfl
      · decide
      · decide
      · exact h1
      · exact h2
      · exact h3
      · exact h4
      · exact h5
      · exact h6
      · exact h7
      · exact h8
      · exact h9
      · exact h10
      · exact h11
    · simp
  unfold parse_cpe_string
  rw [hsplit]
  rfl

/-- Witness for C9 at the spec's example identifier. -/
theorem parse_serialize_round_trip_witness :
    serialize_cpe
        ⟨"a", "vendor", "product", "1.0", "*", "*", "*", "*", "*", "*",
          "*"⟩ = "cpe:2.3:a:vendor:product:1.0:*:*:*:*:*:*:*" ∧
      parse_cpe_string
          (serialize_cpe
            ⟨"a", "vendor", "product", "1.0", "*", "*", "*", "*", "*", "*",
              "*"⟩) =
        some
          { cpe_string :=
              serialize_cpe
                ⟨"a", "vendor", "product", "1.0", "*", "*", "*", "*", "*",
                  "*", "*"⟩
            vendor := "vendor"
            product := "product"
            version := "1.0"
            update := "*"
            edition := "*" } :=
  ⟨by decide,
    parse_serialize_round_trip
      ⟨"a", "vendor", "product", "1.0", "*", "*", "*", "*", "*", "*", "*"⟩
      (by unfold cpeNoColon; decide)⟩

/-! ### `core/cache.py`: two-tier `CacheManager`

The in-process tier is `TTLCache(maxsize=1000, ttl=300)` (entries expire
when `now ≥ inserted + 300`; on insert, expired entries are purged and the
oldest entries beyond capacity are dropped).  The distributed tier (redis)
is modelled as an optional connection whose operations can fail
(`failing = true` ⇒ every call raises); the `try/except` blocks of
`CacheManager.get`/`set` swallow those failures exactly as the source
does.  Values are the Python objects this service caches: strings and
vulnerability lists; `json.dumps`/`json.loads` are opaque collaborators
supplied by `CacheEnv`. -/

/-- A vulnerability dictionary as assembled by `services/enrichment.py`
(`id`, `description`, `severity`). -/
structure Vuln where
  id : String
  description : String
  severity : String
deriving DecidableEq, Repr

/-- A cached Python value: a raw string or a vulnerability list. -/
inductive PyVal
  | str (s : String)
  | vulns (l : List Vuln)
deriving DecidableEq, Repr

/-- Python truthiness of a cached value (`if cached:`): empty strings and
empty lists are falsy. -/
def pyTruthy : PyVal → Bool
  | .str s => s ≠ ""
  | .vulns l => l ≠ []

/-- The distributed (redis) tier: a string-keyed store plus a failure
flag; when `failing` every operation raises. -/
structure RedisSim where
  store : List (String × String)
  failing : Bool
deriving DecidableEq, Repr

/-- State of `CacheManager`: the `enabled` flag, the in-process tier
((key, value, expiry) in insertion order, oldest first), and the optional
redis client. -/
structure CacheState where
  enabled : Bool
  l1 : List (String × PyVal × Nat)
  redis : Option RedisSim
deriving DecidableEq, Repr

/-- Serialization collaborators (`json.dumps` / `json.loads`). -/
structure CacheEnv where
  jsonDumps : PyVal → String
  jsonLoads : String → Option PyVal

/-- Source `TTLCache` maxsize (1000) from `core/cache.py`. -/
def l1Maxsize : Nat := 1000

/-- Source `TTLCache` ttl (300 seconds) from `core/cache.py`. -/
def l1Ttl : Nat := 300

/-- Drop expired entries (`TTLCache` expiry: an entry is gone once
`now ≥ expiry`). -/
def l1Expire (now : Nat) (l : List (String × PyVal × Nat)) :
    List (String × PyVal × Nat) :=
  l.filter fun e => now < e.2.2

/-- Source `key in self.l1_cache` / `self.l1_cache[key]` at time `now`. -/
def l1Lookup (now : Nat) (l : List (String × PyVal × Nat)) (k : String) :
    Option PyVal :=
  ((l1Expire now l).find? fun e => e.1 = k).map fun e => e.2.1

/-- Source `self.l1_cache[key] = value` at time `now`: purge expired entries,
replace any entry for `key`, append the new entry (newest last), then
evict oldest entries past capacity. -/
def l1Insert (now : Nat) (l : List (String × PyVal × Nat)) (k : String)
    (v : PyVal) : List (String × PyVal × Nat) :=
  let base := ((l1Expire now l).filter fun e => e.1 ≠ k) ++ [(k, v, now + l1Ttl)]
  base.drop (base.length - l1Maxsize)

/-- Source `CacheManager.get` (L1 → L2).  Returns the value (or `None`) and the
updated state (an L2 hit that deserializes populates L1); redis errors are
swallowed and answered as a miss. -/
def cacheGet (cenv : CacheEnv) (now : Nat) (st : CacheState) (k : String) :
    Option PyVal × CacheState :=
  if st.enabled = false then (none, st)
  else
    match l1Lookup now st.l1 k with
    | some v => (some v, st)
    | none =>
      match st.redis with
      | none => (none, st)
      | some r =>
        if r.failing then (none, st)
        else
          match (r.store.find? fun p => p.1 = k).map Prod.snd with
          | some data =>
            if data ≠ "" then
              match cenv.jsonLoads data with
              | some v => (some v, { st with l1 := l1Insert now st.l1 k v })
              | none => (some (.str data), st)
            else (none, st)
          | none => (none, st)

/-- Overwrite-or-append an association (redis `SETEX` on the store). -/
def updAssoc (l : List (String × String)) (k v : String) :
    List (String × String) :=
  if l.any fun p => p.1 = k then
    l.map fun p => if p.1 = k then (k, v) else p
  else l ++ [(k, v)]

/-- Source `CacheManager.set` (L1 unconditionally, then best-effort L2).  The ttl
argument defaults to `settings.cache_ttl` (3600); the redis expiration is
not tracked beyond the write.  A failing redis raises inside the
`try/except` and the exception is swallowed: the call always completes,
with L1 already written. -/
def cacheSet (cenv : CacheEnv) (now : Nat) (st : CacheState) (k : String)
    (v : PyVal) : CacheState :=
  if st.enabled = false then st
  else
    let l1' := l1Insert now st.l1 k v
    match st.redis with
    | none => { st with l1 := l1' }
    | some r =>
      if r.failing then { st with l1 := l1' }
      else
        let s := match v with
          | .str s => s
          | .vulns _ => cenv.jsonDumps v
        { st with l1 := l1', redis := some { r with store := updAssoc r.store k s } }

theorem l1Lookup_l1Insert (now : Nat) (l : List (String × PyVal × Nat))
    (k : String) (v : PyVal) :
    l1Lookup now (l1Insert now l k v) k = some v := by
  unfold l1Lookup l1Insert
  generalize hL : ((l1Expire now l).filter fun e => e.1 ≠ k) = pre
  -- the eviction drop keeps the appended entry (capacity is positive);
  -- every surviving earlier entry has a key ≠ k, and the new entry is
  -- unexpired, so the lookup finds exactly it
  have hlast : (pre ++ [(k, v, now + l1Ttl)]).drop
      ((pre ++ [(k, v, now + l1Ttl)]).length - l1Maxsize) =
      (pre.drop ((pre ++ [(k, v, now + l1Ttl)]).length - l1Maxsize)) ++
        [(k, v, now + l1Ttl)] := by
    apply List.drop_append_of_le_length
    simp only [List.length_append, List.length_cons, List.length_nil,
      l1Maxsize]
    omega
  rw [hlast]
  unfold l1Expire
  rw [List.filter_append]
  have hnew : List.filter (fun e => decide (now < e.2.2))
      [(k, v, now + l1Ttl)] = [(k, v, now + l1Ttl)] := by
    simp [l1Ttl]
  rw [hnew, List.find?_append]
  have hpre : (List.filter (fun e => decide (now < e.2.2))
      (pre.drop ((pre ++ [(k, v, now + l1Ttl)]).length - l1Maxsize))).find?
        (fun e => decide (e.1 = k)) = none := by
    rw [List.find?_eq_none]
    intro e he
    have he2 : e ∈ pre := List.mem_of_mem_drop (List.mem_of_mem_filter he)
    have he3 : e.1 ≠ k := by
      rw [← hL] at he2
      have := List.of_mem_filter he2
      simpa using this
    simp [he3]
  rw [hpre]
  simp

/-- C4: with caching enabled, immediately after `set(k, v)` a `get(k)` is
answered `v` from the in-process tier, for every redis state — absent,
healthy, or failing; `set` writes the in-process tier unconditionally (its
L1 is exactly `l1Insert`, whatever the distributed write does or raises);
and a get whose key is in the in-process tier is answered from it without
consulting redis. -/
theorem cache_set_get_coherent (cenv : CacheEnv) (now : Nat)
    (st : CacheState) (k : String) (v : PyVal) (h : st.enabled = true) :
    (cacheGet cenv now (cacheSet cenv now st k v) k).1 = some v ∧
      (cacheSet cenv now st k v).l1 = l1Insert now st.l1 k v ∧
      (∀ w, l1Lookup now st.l1 k = some w →
        cacheGet cenv now st k = (some w, st)) := by
  have hset : (cacheSet cenv now st k v).l1 = l1Insert now st.l1 k v ∧
      (cacheSet cenv now st k v).enabled = st.enabled := by
    unfold cacheSet
    rw [if_neg (by rw [h]; simp)]
    cases st.redis with
    | none => simp
    | some r =>
      by_cases hf : r.failing = true <;> simp [hf]
  refine ⟨?_, hset.1, ?_⟩
  · unfold cacheGet
    rw [if_neg (by rw [hset.2, h]; simp), hset.1, l1Lookup_l1Insert]
  · intro w hw
    unfold cacheGet
    rw [if_neg (by rw [h]; simp), hw]

/-- Witness for C4: a concrete set-then-get with the distributed tier
present but failing. -/
theorem cache_set_get_coherent_witness :
    (cacheGet ⟨fun _ => "", fun _ => none⟩ 0
        (cacheSet ⟨fun _ => "", fun _ => none⟩ 0
          ⟨true, [], some ⟨[], true⟩⟩ "enrich:nginx:1.18.0:nginx"
          (.vulns [⟨"CVE-2021-23017", "resolver off-by-one", "high"⟩]))
        "enrich:nginx:1.18.0:nginx").1 =
      some (.vulns [⟨"CVE-2021-23017", "resolver off-by-one", "high"⟩]) :=
  (cache_set_get_coherent ⟨fun _ => "", fun _ => none⟩ 0
    ⟨true, [], some ⟨[], true⟩⟩ "enrich:nginx:1.18.0:nginx"
    (.vulns [⟨"CVE-2021-23017", "resolver off-by-one", "high"⟩]) rfl).1

/-! ### `services/enrichment.py`: the single-item pipeline and batch

`EnrichmentService._enrich_single_item` is modelled over the cache of
`core/cache.py` and an oracle record for its collaborators (CPE matcher,
database queries, NVD feed, threat-intel enrichment; each of those methods
catches its own exceptions and returns a list, so they are total here).
The item dictionaries are modelled by their three read fields. -/

/-- The fields `_enrich_single_item` reads from an input item. -/
structure EnrichItem where
  name : String
  version : String
  vendor : String
deriving DecidableEq, Repr

/-- The enriched item dictionary: input fields plus `cpe`,
`vulnerabilities` and `source` (on a cache hit the `cpe` key is never
written, modelled as `none`). -/
structure EnrichResult where
  item : EnrichItem
  cpe : Option String
  vulnerabilities : PyVal
  source : String
deriving DecidableEq, Repr

/-- Collaborators of `_enrich_single_item`: `_find_cpe`,
`_get_vulns_by_cpe`, `_get_vulns_by_text`, `_get_vulns_from_nvd` (all of
which swallow their own errors and return lists), and
`_enrich_with_threat_intel`. -/
structure SingleEnv where
  findCpe : String → String → String → Option String
  vulnsByCpe : String → List Vuln
  vulnsByText : String → String → List Vuln
  vulnsFromNvd : String → String → Option String → List Vuln
  threatIntel : List Vuln → List Vuln

/-- Source `cache_key = f"enrich:{name}:{version}:{vendor}"`. -/
def enrich_cache_key (it : EnrichItem) : String :=
  "enrich:" ++ it.name ++ ":" ++ it.version ++ ":" ++ it.vendor

/-- The cache-miss path of `_enrich_single_item` (steps 2-5): resolve a
CPE, query by CPE, fall back to text search, then to the NVD feed; enrich
with threat intel when nonempty; cache the final list regardless of
emptiness; then assign `source` with the ternary
`"db" if vulns else ("nvd" if vulns else "none")` exactly as written
(its `"nvd"` arm repeats the same condition and is unreachable). -/
def enrichMiss (env : SingleEnv) (cenv : CacheEnv) (now : Nat)
    (st : CacheState) (it : EnrichItem) (key : String) :
    EnrichResult × CacheState :=
  let cpe := env.findCpe it.name it.version it.vendor
  let v1 := match cpe with
    | some c => env.vulnsByCpe c
    | none => []
  let v2 := if v1 = [] then env.vulnsByText it.name it.version else v1
  let v3 := if v2 = [] then
      (let nv := env.vulnsFromNvd it.name it.version cpe
       if nv = [] then v2 else nv)
    else v2
  let final := if v3 = [] then [] else env.threatIntel v3
  let st2 := cacheSet cenv now st key (.vulns final)
  let source := if final ≠ [] then "db" else if final ≠ [] then "nvd" else "none"
  ({ item := it, cpe := cpe, vulnerabilities := .vulns final,
     source := source }, st2)

/-- Source `EnrichmentService._enrich_single_item`: cache check (Python
truthiness: a cached empty list is treated as a miss), then the miss
path. -/
def enrich_single_item (env : SingleEnv) (cenv : CacheEnv) (now : Nat)
    (st : CacheState) (it : EnrichItem) : EnrichResult × CacheState :=
  let key := enrich_cache_key it
  let g := cacheGet cenv now st key
  match g.1 with
  | some cached =>
    if pyTruthy cached then
      ({ item := it, cpe := none, vulnerabilities := cached,
         source := "cache" }, g.2)
    else enrichMiss env cenv now g.2 it key
  | none => enrichMiss env cenv now g.2 it key

/-- Source `EnrichmentService.enrich_software`: `asyncio.gather(...,
return_exceptions=True)` yields one outcome per item in input order; the
collection loop *skips* outcomes that are exceptions (`logger.error` then
`continue`).  The per-item pipeline (which may raise) is abstracted as a
fallible function. -/
def enrich_software (pipeline : EnrichItem → Except String EnrichResult)
    (items : List EnrichItem) : List EnrichResult :=
  (items.map pipeline).filterMap fun r =>
    match r with
    | .ok v => some v
    | .error _ => none

/-! ### `batch_enrichment.py`: `BatchEnrichmentService` -/

/-- Source `AppData` of `batch_enrichment.py`. -/
structure AppData where
  id : String
  company_id : String
  agent_id : String
  app_name : String
  app_version : String
  package_type : String
  architecture : Option String
deriving DecidableEq, Repr

/-- Source `Vulnerability` of `batch_enrichment.py`. -/
structure BatchVuln where
  cve_id : String
  severity : String
  cvss_score : ℚ
  title : String
  description : String
  references : List String
deriving DecidableEq, Repr

/-- Source `EnrichmentResult` of `batch_enrichment.py` (`enriched_at` is a wall
clock timestamp and is not modelled). -/
structure BatchResult where
  app_id : String
  company_id : String
  agent_id : String
  vulnerabilities : List BatchVuln
  error : Option String
deriving DecidableEq, Repr

/-- The inner `enrich_single` closure of
`BatchEnrichmentService.enrich_apps_parallel`: the whole body is inside
`try/except`, so a raising `get_cve_data` (abstracted as a fallible
oracle) yields a placeholder result carrying the error and an empty
vulnerability list. -/
def enrich_single_app (getCve : AppData → Except String (List BatchVuln))
    (app : AppData) : String × BatchResult :=
  match getCve app with
  | .ok vs => (app.id, ⟨app.id, app.company_id, app.agent_id, vs, none⟩)
  | .error e => (app.id, ⟨app.id, app.company_id, app.agent_id, [], some e⟩)

/-- Source `BatchEnrichmentService.enrich_apps_parallel`: gather preserves task
order; since `enrich_single` never raises, no outcome is dropped by the
exception filter. -/
def enrich_apps_parallel (getCve : AppData → Except String (List BatchVuln))
    (apps : List AppData) : List (String × BatchResult) :=
  apps.map (enrich_single_app getCve)

/-- Python dict construction from key/value pairs (later pairs win). -/
def dictOf (ps : List (String × BatchResult)) : String → Option BatchResult :=
  ps.foldl (fun m kv => fun k => if k = kv.1 then some kv.2 else m k)
    (fun _ => none)

/-- Source `BatchEnrichmentService.process_batch`: cached results keyed by app
id, the uncached apps enriched in parallel, the two dicts merged
(`{**cached, **enriched}`), and the final list rebuilt in *input order* by
`[all_results[app.id] for app in apps]`; a missing key there raises
(`None` models the `HTTPException` path).  The write-back of results to
redis is a side effect that does not alter the return value and is not
modelled. -/
def process_batch (cachedL : String → Option BatchResult)
    (getCve : AppData → Except String (List BatchVuln))
    (apps : List AppData) : Option (List BatchResult) :=
  let cachedPairs := apps.filterMap fun a => (cachedL a.id).map fun r => (a.id, r)
  let uncached := apps.filter fun a => (cachedL a.id).isNone
  let enriched := enrich_apps_parallel getCve uncached
  let allMap := dictOf (cachedPairs ++ enriched)
  apps.mapM fun a => allMap a.id

/-- A pipeline that raises for the item named `"bad"`. -/
def demoPipeline : EnrichItem → Except String EnrichResult := fun it =>
  if it.name = "bad" then .error "boom"
  else .ok ⟨it, none, .vulns [], "none"⟩

/-- A `get_cve_data` oracle that raises for the app named `"bad"`. -/
def demoGetCve : AppData → Except String (List BatchVuln) := fun a =>
  if a.app_name = "bad" then .error "boom" else .ok []

/-- C1 (failing input): for the batch `[good1, bad, good2]` where item
`bad`'s pipeline raises, `enrich_software` returns only two results — the
failed item is logged and *dropped*, not reported in place — while
`process_batch` on the analogous batch returns exactly one result per
app, in input order, with the failure isolated at index 1 (error recorded,
empty vulnerability list). -/
theorem enrich_software_drops_failed_items :
    (enrich_software demoPipeline
        [⟨"good1", "1", ""⟩, ⟨"bad", "1", ""⟩, ⟨"good2", "1", ""⟩]).length =
      2 ∧
      enrich_software demoPipeline
          [⟨"good1", "1", ""⟩, ⟨"bad", "1", ""⟩, ⟨"good2", "1", ""⟩] =
        [⟨⟨"good1", "1", ""⟩, none, .vulns [], "none"⟩,
          ⟨⟨"good2", "1", ""⟩, none, .vulns [], "none"⟩] ∧
      process_batch (fun _ => none) demoGetCve
          [⟨"a1", "c", "g", "good1", "1", "os", none⟩,
            ⟨"a2", "c", "g", "bad", "1", "os", none⟩,
            ⟨"a3", "c", "g", "good2", "1", "os", none⟩] =
        some
          [⟨"a1", "c", "g", [], none⟩, ⟨"a2", "c", "g", [], some "boom"⟩,
            ⟨"a3", "c", "g", [], none⟩] := by
  refine ⟨by decide, by decide, by decide⟩

/-- Oracles for the C2 scenario: no CPE resolved, both local repository
paths empty, the NVD feed returning one vulnerability, threat intel the
identity. -/
def nvdOnlyEnv : SingleEnv :=
  ⟨fun _ _ _ => none, fun _ => [], fun _ _ => [],
    fun _ _ _ => [⟨"CVE-2024-0001", "nvd fallback vulnerability", "high"⟩],
    fun l => l⟩

/-- Serialization oracles for the C2 scenario (unused with no redis). -/
def plainCacheEnv : CacheEnv := ⟨fun _ => "", fun _ => none⟩

/-- Enabled cache, empty in-process tier, no distributed tier. -/
def freshCache : CacheState := ⟨true, [], none⟩

/-- The C2 input item. -/
def demoItem : EnrichItem := ⟨"leftpad", "1.0", ""⟩

/-- C2 (failing input): an item whose vulnerabilities come only from the
external NVD feed.  The vulnerability list is cached under the item's key
(as the claim states) and a second identical request is answered from the
cache with `source = "cache"` — but the first result's `source` is
`"db"`, not the feed label: the ternary
`"db" if vulns else ("nvd" if vulns else "none")` tests the same
condition twice, so its `"nvd"` arm is unreachable and every nonempty
result is labelled as coming from the store. -/
theorem enrich_source_label_bug :
    (enrich_single_item nvdOnlyEnv plainCacheEnv 0 freshCache demoItem).1.source =
      "db" ∧
      (enrich_single_item nvdOnlyEnv plainCacheEnv 0 freshCache
          demoItem).1.vulnerabilities =
        .vulns [⟨"CVE-2024-0001", "nvd fallback vulnerability", "high"⟩] ∧
      (cacheGet plainCacheEnv 0
          (enrich_single_item nvdOnlyEnv plainCacheEnv 0 freshCache
            demoItem).2 (enrich_cache_key demoItem)).1 =
        some (.vulns [⟨"CVE-2024-0001", "nvd fallback vulnerability",
          "high"⟩]) ∧
      (enrich_single_item nvdOnlyEnv plainCacheEnv 0
          (enrich_single_item nvdOnlyEnv plainCacheEnv 0 freshCache
            demoItem).2 demoItem).1.source = "cache" := by
  refine ⟨by decide, by decide, by decide, by decide⟩

/-! ### `services/cpe_matcher.py`: `SemanticCPEMatcher.match_software`

The L1 exact-match lookup against the CPE-guesser Valkey data: per-keyword
sets `w:<word>`, per-keyword sorted sets `s:<word>` and the global
popularity rank `rank:cpe` are read-only collaborators, modelled by
`L1Env`.  The HTTP guesser fallback and the L2 semantic search are
likewise oracles. -/

/-- Python `s.split()` worker: whitespace-run splitting, no empty parts. -/
def wsplitGo : List Char → List Char → List (List Char)
  | [], cur => if cur = [] then [] else [cur.reverse]
  | c :: rest, cur =>
    if isPySpace c then
      (if cur = [] then wsplitGo rest [] else cur.reverse :: wsplitGo rest [])
    else wsplitGo rest (c :: cur)

/-- Python `s.split()` (no separator argument). -/
def pySplitWs (s : String) : List String :=
  (wsplitGo s.data []).map fun l => ⟨l⟩

/-- Python `s.lower()` (ASCII fragment). -/
def pyLower (s : String) : String := ⟨s.data.map Char.toLower⟩

/-- Python `s.strip()` on `String`. -/
def pyStrip (s : String) : String := ⟨pyStripL s.data⟩

/-- Source `list(dict.fromkeys(words))`: deduplicate keeping first occurrences. -/
def dedupGo : List String → List String → List String
  | [], _ => []
  | w :: rest, seen =>
    if w ∈ seen then dedupGo rest seen else w :: dedupGo rest (w :: seen)

/-- Deduplication preserving order. -/
def dedupKeepFirst (l : List String) : List String := dedupGo l []

/-- The search words of `match_software`: lowercased vendor and product
words longer than two characters, deduplicated preserving order (the
version is deliberately not used). -/
def buildWords (vendor product : String) : List String :=
  dedupKeepFirst
    (((pySplitWs vendor).filterMap fun w =>
        if 2 < w.length then some (pyLower w) else none) ++
      ((pySplitWs product).filterMap fun w =>
        if 2 < w.length then some (pyLower w) else none))

/-- A match dictionary `{"cpe": ..., "score": ..., "method": ...}`. -/
structure MatchCand where
  cpe : String
  score : ℚ
  method : String
deriving DecidableEq, Repr

/-- Read-only collaborators of `match_software`: `singleSet w` is the
sorted set `s:<w>` in descending score order, `wordSet w` the members of
`w:<w>`, `rank` the `zrank` into `rank:cpe`; `httpGuess` is the CPE
guesser HTTP client (`none` models an exception or no results) and
`semantic` the pgvector search. -/
structure L1Env where
  singleSet : String → List (String × ℚ)
  wordSet : String → List String
  rank : String → Option Nat
  httpGuess : List String → Option (List (Nat × String))
  semantic : String → List MatchCand

/-- The feature switches read by `match_software`
(`settings.cpe_guesser_enabled`, `settings.pgvector_enabled`) and whether
the direct Valkey connection succeeds (its failure raises into the
`except` branch). -/
structure MatchCfg where
  guesserEnabled : Bool
  pgvectorEnabled : Bool
  valkeyUp : Bool
deriving DecidableEq, Repr

/-- Source `rdb.sinter(*word_keys)`: the members present in every per-token set
(enumerated in the order of the first token's set). -/
def intersectAll (env : L1Env) (words : List String) : List String :=
  match words with
  | [] => []
  | w :: rest =>
    (env.wordSet w).filter fun c =>
      rest.all fun w2 => decide (c ∈ env.wordSet w2)

/-- The direct-Valkey L1 attempt of `match_software` (the body of the
`if words:` block): `some` when one of its `return matches` statements
runs, `none` when control falls through to the semantic fallback. -/
def l1_direct (env : L1Env) (words : List String) : Option (List MatchCand) :=
  if words = [] then none
  else if words.length = 1 then
    let results := (env.singleSet (words.headD "")).take 10
    if results = [] then none
    else
      let ms := (results.take 5).map fun p =>
        (⟨p.1, if p.2 ≠ 0 then p.2 / 1000 else 9 / 10,
          "cpe_guesser_direct"⟩ : MatchCand)
      if ms = [] then none else some ms
  else
    let inter := intersectAll env words
    if inter = [] then none
    else
      let ranked := inter.map fun c => ((env.rank c).getD 0, c)
      let sorted := List.insertionSort (fun a b : Nat × String => b.1 ≤ a.1)
        ranked
      let ms := (sorted.take 5).enum.map fun p =>
        (⟨p.2.2, 19 / 20 - (1 / 20) * (p.1 : ℚ),
          "cpe_guesser_direct"⟩ : MatchCand)
      if ms = [] then none else some ms

/-- The HTTP guesser fallback of the `except` branch. -/
def l1_http (env : L1Env) (vendor product version : String) :
    Option (List MatchCand) :=
  let words :=
    (if vendor ≠ "" then [pyLower vendor] else []) ++
      (if product ≠ "" then [pyLower product] else []) ++
      (if version ≠ "" then [pyLower version] else [])
  if words = [] then none
  else
    match env.httpGuess words with
    | none => none
    | some results =>
      if results = [] then none
      else
        let ms := (results.take 5).map fun p =>
          (⟨p.2, if p.1 ≠ 0 then 1 - (p.1 : ℚ) / 1000 else 9 / 10,
            "cpe_guesser_http"⟩ : MatchCand)
        if ms = [] then none else some ms

/-- Source `SemanticCPEMatcher.match_software`: L1 (direct Valkey, falling back
to the HTTP service when the connection raises), then the semantic search
if pgvector is enabled, else no matches. -/
def match_software (cfg : MatchCfg) (env : L1Env)
    (vendor product version : String) : List MatchCand :=
  let l1 :=
    if cfg.guesserEnabled then
      if cfg.valkeyUp then l1_direct env (buildWords vendor product)
      else l1_http env vendor product version
    else none
  match l1 with
  | some ms => ms
  | none =>
    if cfg.pgvectorEnabled then
      env.semantic (pyStrip (vendor ++ " " ++ product ++ " " ++ version))
    else []

theorem mem_intersectAll {env : L1Env} {words : List String} {c : String}
    (h : c ∈ intersectAll env words) (hw : words ≠ []) :
    ∀ w ∈ words, c ∈ env.wordSet w := by
  cases words with
  | nil => exact absurd rfl hw
  | cons w rest =>
    intro w' hw'
    unfold intersectAll at h
    have h1 := List.mem_filter.mp h
    rcases List.mem_cons.mp hw' with rfl | hmem
    · exact h1.1
    · exact of_decide_eq_true (List.all_eq_true.mp h1.2 w' hmem)

theorem enum_map_comp_snd {α β : Type _} (l : List α) (h : α → β) :
    l.enum.map (fun p => h p.2) = l.map h := by
  conv_rhs => rw [← List.enum_map_snd l]
  rw [List.map_map]
  rfl

theorem match_software_multi (cfg : MatchCfg) (env : L1Env)
    (vendor product version : String)
    (hg : cfg.guesserEnabled = true) (hv : cfg.valkeyUp = true)
    (hn : 2 ≤ (buildWords vendor product).length)
    (hi : intersectAll env (buildWords vendor product) ≠ []) :
    match_software cfg env vendor product version =
      ((List.insertionSort (fun a b : Nat × String => b.1 ≤ a.1)
          ((intersectAll env (buildWords vendor product)).map fun c =>
            ((env.rank c).getD 0, c))).take 5).enum.map fun p =>
        (⟨p.2.2, 19 / 20 - (1 / 20) * (p.1 : ℚ),
          "cpe_guesser_direct"⟩ : MatchCand) := by
  have hne : buildWords vendor product ≠ [] := by
    intro e
    rw [e] at hn
    simp at hn
  have h1 : ¬ (buildWords vendor product).length = 1 := by omega
  have hpos : 0 < (intersectAll env (buildWords vendor product)).length :=
    List.length_pos.mpr hi
  have hmsne :
      ((((List.insertionSort (fun a b : Nat × String => b.1 ≤ a.1)
          ((intersectAll env (buildWords vendor product)).map fun c =>
            ((env.rank c).getD 0, c))).take 5).enum.map fun p =>
        (⟨p.2.2, 19 / 20 - (1 / 20) * (p.1 : ℚ),
          "cpe_guesser_direct"⟩ : MatchCand)) : List MatchCand) ≠ [] := by
    apply List.ne_nil_of_length_pos
    simp only [List.length_map, List.enum_length, List.length_take,
      List.length_insertionSort]
    omega
  unfold match_software l1_direct
  rw [hg, hv]
  simp only [if_true]
  rw [if_neg hne, if_neg h1, if_neg hi, if_neg hmsne]

theorem l1_direct_empty_intersection (env : L1Env) (words : List String)
    (hn : 2 ≤ words.length) (hi : intersectAll env words = []) :
    l1_direct env words = none := by
  have hne : words ≠ [] := by
    intro e
    rw [e] at hn
    simp at hn
  have h1 : ¬ words.length = 1 := by omega
  unfold l1_direct
  rw [if_neg hne, if_neg h1, if_pos hi]

/-- C5 (amended): for a query whose token list has at least two tokens, on
the direct L1 path the candidates are drawn exactly from the set
intersection of the per-token sets — every candidate lies in every
per-token set, and every intersection member appears whenever the
intersection has at most five elements (the code truncates to the top
five) — ranked by the global popularity rank descending with confidences
`0.95, 0.90, 0.85, ...` by position; an empty intersection yields no L1
candidates (control falls through to the semantic stage). -/
theorem l1_exact_intersection (cfg : MatchCfg) (env : L1Env)
    (vendor product version : String)
    (hg : cfg.guesserEnabled = true) (hv : cfg.valkeyUp = true)
    (hn : 2 ≤ (buildWords vendor product).length) :
    (intersectAll env (buildWords vendor product) = [] →
      l1_direct env (buildWords vendor product) = none ∧
      match_software cfg env vendor product version =
        (if cfg.pgvectorEnabled then
          env.semantic (pyStrip (vendor ++ " " ++ product ++ " " ++ version))
         else [])) ∧
      (∀ m ∈ match_software cfg env vendor product version,
        intersectAll env (buildWords vendor product) ≠ [] →
        ∀ w ∈ buildWords vendor product, m.cpe ∈ env.wordSet w) ∧
      (intersectAll env (buildWords vendor product) ≠ [] →
        (match_software cfg env vendor product version).length ≤ 5 ∧
        ((intersectAll env (buildWords vendor product)).length ≤ 5 →
          ∀ c ∈ intersectAll env (buildWords vendor product),
            c ∈ (match_software cfg env vendor product version).map
              MatchCand.cpe) ∧
        (match_software cfg env vendor product version).map MatchCand.score =
          (List.range
            (match_software cfg env vendor product version).length).map
              (fun i : Nat => 19 / 20 - (1 / 20) * (i : ℚ)) ∧
        ((match_software cfg env vendor product version).map
          (fun m => (env.rank m.cpe).getD 0)).Pairwise (fun a b => b ≤ a)) := by
  have hwne : buildWords vendor product ≠ [] := by
    intro e
    rw [e] at hn
    simp at hn
  by_cases hi : intersectAll env (buildWords vendor product) = []
  · refine ⟨fun _ => ?_, fun m _ hi' => absurd hi hi', fun hi' => absurd hi hi'⟩
    have hd := l1_direct_empty_intersection env (buildWords vendor product) hn hi
    constructor
    · exact hd
    · unfold match_software
      rw [hg, hv]
      simp only [if_true]
      rw [hd]
  · have hE := match_software_multi cfg env vendor product version hg hv hn hi
    -- names for the pipeline stages
    set inter := intersectAll env (buildWords vendor product) with hinter
    set ranked := inter.map (fun c => ((env.rank c).getD 0, c)) with hranked
    set sorted := List.insertionSort (fun a b : Nat × String => b.1 ≤ a.1)
      ranked with hsorted
    set t5 := sorted.take 5 with ht5
    have hperm := List.perm_insertionSort
      (fun a b : Nat × String => b.1 ≤ a.1) ranked
    have hcpe : (match_software cfg env vendor product version).map
        MatchCand.cpe = t5.map Prod.snd := by
      rw [hE, List.map_map]
      exact enum_map_comp_snd t5 Prod.snd
    have hmemranked : ∀ q ∈ t5, q ∈ ranked := fun q hq =>
      hperm.mem_iff.mp (List.mem_of_mem_take hq)
    have hqshape : ∀ q ∈ t5, q.1 = (env.rank q.2).getD 0 := by
      intro q hq
      obtain ⟨c, _, hfc⟩ := List.mem_map.mp (hmemranked q hq)
      rw [← hfc]
    refine ⟨fun hi' => absurd hi' hi, ?_, fun _ => ⟨?_, ?_, ?_, ?_⟩⟩
    · -- soundness: every candidate is in every per-token set
      intro m hm _
      have hc : m.cpe ∈ t5.map Prod.snd := by
        rw [← hcpe]
        exact List.mem_map_of_mem MatchCand.cpe hm
      obtain ⟨q, hq, hqe⟩ := List.mem_map.mp hc
      obtain ⟨c, hcmem, hfc⟩ := List.mem_map.mp (hmemranked q hq)
      have : m.cpe = c := by rw [← hqe, ← hfc]
      rw [this]
      exact mem_intersectAll hcmem hwne
    · -- at most five candidates
      rw [hE]
      simp only [List.length_map, List.enum_length]
      rw [ht5]
      simp only [List.length_take]
      omega
    · -- completeness when the intersection is small
      intro hle c hc
      have hq : ((env.rank c).getD 0, c) ∈ ranked :=
        List.mem_map_of_mem _ hc
      have hlen : sorted.length ≤ 5 := by
        rw [hsorted, List.length_insertionSort, hranked, List.length_map]
        exact hle
      have ht5eq : t5 = sorted := by
        rw [ht5]
        exact List.take_of_length_le hlen
      have hq2 : ((env.rank c).getD 0, c) ∈ t5 := by
        rw [ht5eq]
        exact hperm.mem_iff.mpr hq
      rw [hcpe]
      exact List.mem_map.mpr ⟨_, hq2, rfl⟩
    · -- confidences decrease by position: 0.95, 0.90, ...
      rw [hE, List.map_map]
      have h1 : (MatchCand.score ∘ fun p : Nat × (Nat × String) =>
          (⟨p.2.2, 19 / 20 - (1 / 20) * (p.1 : ℚ),
            "cpe_guesser_direct"⟩ : MatchCand)) =
          (fun i : Nat => 19 / 20 - (1 / 20) * (i : ℚ)) ∘ Prod.fst := rfl
      have h2 : ((t5.enum.map fun p : Nat × (Nat × String) =>
          (⟨p.2.2, 19 / 20 - (1 / 20) * (p.1 : ℚ),
            "cpe_guesser_direct"⟩ : MatchCand)).length) = t5.length := by
        rw [List.length_map, List.enum_length]
      rw [h1, ← List.map_map, List.enum_map_fst, h2]
    · -- ranks descending along the returned order
      letI : IsTotal (Nat × String) (fun a b => b.1 ≤ a.1) :=
        ⟨fun a b => le_total b.1 a.1⟩
      letI : IsTrans (Nat × String) (fun a b => b.1 ≤ a.1) :=
        ⟨fun a b c h1 h2 => le_trans h2 h1⟩
      have hsortpair : t5.Pairwise (fun a b => b.1 ≤ a.1) :=
        List.Pairwise.sublist (List.take_sublist _ _)
          (List.sorted_insertionSort _ _)
      have hmapeq : (match_software cfg env vendor product version).map
          (fun m => (env.rank m.cpe).getD 0) = t5.map Prod.fst := by
        rw [hE, List.map_map]
        have h2 : ((fun m : MatchCand => (env.rank m.cpe).getD 0) ∘
            fun p : Nat × (Nat × String) =>
              (⟨p.2.2, 19 / 20 - (1 / 20) * (p.1 : ℚ),
                "cpe_guesser_direct"⟩ : MatchCand)) =
            fun p : Nat × (Nat × String) => (env.rank p.2.2).getD 0 := rfl
        rw [h2, enum_map_comp_snd t5 (fun q => (env.rank q.2).getD 0)]
        exact List.map_congr_left fun q hq => (hqshape q hq).symm
      rw [hmapeq]
      exact List.pairwise_map.mpr hsortpair

/-- Settings/env for the C5 counterexample: two tokens whose sets share
six identifiers. -/
def c5Env : L1Env :=
  { singleSet := fun _ => []
    wordSet := fun w =>
      if w = "nginx" then ["A", "B", "C", "D", "E", "F"]
      else if w = "server" then ["F", "E", "D", "C", "B", "A"]
      else []
    rank := fun c =>
      if c = "A" then some 60
      else if c = "B" then some 50
      else if c = "C" then some 40
      else if c = "D" then some 30
      else if c = "E" then some 20
      else if c = "F" then some 10
      else none
    httpGuess := fun _ => none
    semantic := fun _ => [] }

/-- Guesser enabled, semantic disabled, Valkey up. -/
def c5Cfg : MatchCfg := ⟨true, false, true⟩

/-- C5 (counterexample): with per-token sets intersecting in six
identifiers `A..F`, the L1 candidate list contains only the top five by
rank — `F` is in both token sets (hence in the exact intersection) but is
not among the candidates, so the candidate set is not *exactly* the
intersection. -/
theorem l1_intersection_truncation_counterexample :
    (match_software c5Cfg c5Env "" "nginx server" "1.0").map MatchCand.cpe =
        ["A", "B", "C", "D", "E"] ∧
      "F" ∈ c5Env.wordSet "nginx" ∧
      "F" ∈ c5Env.wordSet "server" ∧
      "F" ∉ (match_software c5Cfg c5Env "" "nginx server" "1.0").map
        MatchCand.cpe := by
  refine ⟨by decide, by decide, by decide, by decide⟩

/-- Witness for C5: the confidence schedule at the concrete env (five
candidates scored 0.95, 0.90, 0.85, 0.80, 0.75). -/
theorem l1_exact_intersection_witness :
    (match_software c5Cfg c5Env "" "nginx server" "1.0").map MatchCand.score =
      (List.range
        (match_software c5Cfg c5Env "" "nginx server" "1.0").length).map
          (fun i : Nat => 19 / 20 - (1 / 20) * (i : ℚ)) :=
  ((l1_exact_intersection c5Cfg c5Env "" "nginx server" "1.0" rfl rfl
    (by decide)).2.2 (by decide)).2.2.1

end ZeroTrace
